import Mathlib

/-!
Verification of the `splat` ROM-splitting tool (`split.py`).

Python strings are embedded as `List Char` (`PyStr`), Python dicts keyed by
integer addresses as insertion-ordered association lists, and Python sets of
strings as duplicate-free lists built by `pyAdd`.  Fallible Python code
(statements that can raise `IndexError` / `ValueError` / `TypeError`) is
embedded in `Option` / `Except`.
-/

namespace Splat

/-- A Python string, embedded as its list of characters. -/
abbrev PyStr := List Char

/-- Python `str.strip()`: remove leading and trailing whitespace. -/
def pyStrip (s : PyStr) : PyStr :=
  ((s.dropWhile Char.isWhitespace).reverse.dropWhile Char.isWhitespace).reverse

/-- Python `str.split(sep)` for a one-character separator: split at every
occurrence of `sep`, keeping empty pieces (`"".split(sep) == [""]`). -/
def splitOnChar (sep : Char) : PyStr → List PyStr
  | [] => [[]]
  | c :: rest =>
    let r := splitOnChar sep rest
    if c = sep then [] :: r
    else
      match r with
      | [] => [[c]]
      | g :: gs => (c :: g) :: gs

/-- Python `str.replace(old, new)` for the one-character pattern used at the
single call site (`s.replace("\n", "\n    ")` in `write_ldscript`). -/
def replaceChar (old : Char) (new : PyStr) : PyStr → PyStr
  | [] => []
  | c :: rest => (if c = old then new else [c]) ++ replaceChar old new rest

/-- Value of a hexadecimal digit character, if it is one. -/
def hexDigitVal (c : Char) : Option Nat :=
  if '0' ≤ c ∧ c ≤ '9' then some (c.toNat - '0'.toNat)
  else if 'a' ≤ c ∧ c ≤ 'f' then some (c.toNat - 'a'.toNat + 10)
  else if 'A' ≤ c ∧ c ≤ 'F' then some (c.toNat - 'A'.toNat + 10)
  else none

/-- Value of a decimal digit character, if it is one. -/
def decDigitVal (c : Char) : Option Nat :=
  if '0' ≤ c ∧ c ≤ '9' then some (c.toNat - '0'.toNat) else none

/-- Accumulate digits of the given base; `none` on a non-digit. -/
def parseDigits (digitVal : Char → Option Nat) (base : Nat) : PyStr → Nat → Option Nat
  | [], acc => some acc
  | c :: rest, acc =>
    match digitVal c with
    | some d => parseDigits digitVal base rest (acc * base + d)
    | none => none

/-- Python `int(s, 0)` restricted to the non-negative numerals appearing in
the symbol sources: an optional surrounding-whitespace strip, `0x`/`0X`
prefixed hexadecimal, the bare zero, or a plain decimal numeral with no
leading zero.  `none` models `ValueError`. -/
def pyInt0 (s : PyStr) : Option Nat :=
  let t := pyStrip s
  match t with
  | '0' :: 'x' :: rest => if rest = [] then none else parseDigits hexDigitVal 16 rest 0
  | '0' :: 'X' :: rest => if rest = [] then none else parseDigits hexDigitVal 16 rest 0
  | ['0'] => some 0
  | '0' :: _ => none
  | [] => none
  | t => parseDigits decDigitVal 10 t 0

/-- Python `set.add` on a set embedded as a duplicate-free list. -/
def pyAdd (l : List PyStr) (x : PyStr) : List PyStr :=
  if x ∈ l then l else l ++ [x]

/-- Python `set |= set` (`update`), folding `pyAdd` over the added elements. -/
def pyUnion (l : List PyStr) (xs : List PyStr) : List PyStr :=
  xs.foldl pyAdd l

/-- Python dict assignment `t[a] = n` on an insertion-ordered association
list: overwrite in place if `a` is already a key, else append. -/
def dictSet (t : List (Nat × PyStr)) (a : Nat) (n : PyStr) : List (Nat × PyStr) :=
  if t.any (fun p => p.1 == a) then t.map (fun p => if p.1 == a then (a, n) else p)
  else t ++ [(a, n)]

/-- Python dict lookup `t[a]`, as an `Option`. -/
def dictGet (t : List (Nat × PyStr)) (a : Nat) : Option PyStr :=
  (t.find? (fun p => p.1 == a)).map Prod.snd

/-- The content written by `write_ldscript` (`split.py` lines 23-33) for a
given ordered list of section fragments: a `SECTIONS` header, the fragments
joined by a newline plus four spaces (each fragment's own embedded newlines
continued with four spaces), and a closing brace plus final newline. -/
def ldscriptContent (sections : List PyStr) : PyStr :=
  "SECTIONS\n\x7b\n".toList
    ++ List.intercalate "\n    ".toList (sections.map (replaceChar '\n' "\n    ".toList))
    ++ "\n\x7d\n".toList

/-- Python `s[:s.find("(")]`: the characters before the first `'('` when one
occurs, and all but the last character (`find` returns `-1`) otherwise. -/
def beforeParen (s : PyStr) : PyStr :=
  if '(' ∈ s then s.takeWhile (fun c => ¬ c = '(') else s.dropLast

/-- State built by `gather_c_funcs`: the address-to-name function table and
the set of function names whose glabels must be emitted explicitly. -/
structure FuncGatherState where
  funcs : List (Nat × PyStr)
  labelsToAdd : List PyStr
deriving DecidableEq

/-- Parse of one recognized `functions.h` line (`split.py` lines 73-77): the
address is `int` of the first 10 characters of the second whitespace token,
the name is the fifth token truncated before its `'('`.  Also returns the
raw address-comment token, whose flag suffix drives explicit labels. -/
def parseFuncLine (line : PyStr) : Option (Nat × PyStr × PyStr) :=
  if ("/* 0x".toList).isPrefixOf line then do
    let parts := splitOnChar ' ' (pyStrip line)
    let addrComment ← parts[1]?
    let addr ← pyInt0 (addrComment.take 10)
    let tok4 ← parts[4]?
    some (addr, beforeParen tok4, addrComment)
  else none

/-- The explicit-label condition of `split.py` line 80: the address-comment
token is longer than 10 characters and its character at index 10 (the 11th
character) is `'!'`. -/
def explicitFlag (addrComment : PyStr) : Bool :=
  decide (addrComment.length > 10) && (addrComment[10]? == some '!')

/-- One iteration of the `functions.h` loop (`split.py` lines 72-83): lines
not starting with the marker are ignored; a recognized line stores
`funcs[addr] = name` and, when flagged, adds the name to the label set.
`none` models an uncaught `IndexError`/`ValueError` on a malformed line. -/
def processFunctionsHLine (st : FuncGatherState) (line : PyStr) : Option FuncGatherState :=
  if ("/* 0x".toList).isPrefixOf line then
    (parseFuncLine line).map (fun r =>
      { funcs := dictSet st.funcs r.1 r.2.1,
        labelsToAdd := if explicitFlag r.2.2 then pyAdd st.labelsToAdd r.2.1 else st.labelsToAdd })
  else some st

/-- Parse of one `tools/symbol_addrs.txt` line (`split.py` lines 91-99):
semicolon-split; a leading `'!'` on the name is stripped and remembered as
the explicit-label flag; the address is `int(parts[1], 0)`. -/
def parseSymbolAddrsLine (line : PyStr) : Option (Nat × PyStr × Bool) := do
  let parts := splitOnChar ';' (pyStrip line)
  let name0 ← parts[0]?
  let flagged := name0.head? == some '!'
  let name := if flagged then name0.tail else name0
  let addrTok ← parts[1]?
  let addr ← pyInt0 addrTok
  some (addr, name, flagged)

/-- One iteration of the manual symbol-address loop (`split.py` lines
91-99): stores `funcs[addr] = name` (overwriting any auto-harvested entry at
the same address) and adds flagged names to the label set. -/
def processSymbolAddrsLine (st : FuncGatherState) (line : PyStr) : Option FuncGatherState :=
  (parseSymbolAddrsLine line).map (fun r =>
    { funcs := dictSet st.funcs r.1 r.2.1,
      labelsToAdd := if r.2.2 then pyAdd st.labelsToAdd r.2.1 else st.labelsToAdd })

/-- `gather_c_funcs` (`split.py` lines 63-101) over the two source files'
lines: the auto-harvested `functions.h` lines are folded first, the manual
`tools/symbol_addrs.txt` lines after them.  A missing file is the empty
line list. -/
def gather_c_funcs (funcLines symbolAddrsLines : List PyStr) : Option FuncGatherState := do
  let st ← funcLines.foldlM processFunctionsHLine ⟨[], []⟩
  symbolAddrsLines.foldlM processSymbolAddrsLine st

/-- One iteration of the `variables.h` loop (`split.py` lines 112-120):
recognized lines store the address from the whole second token and the name
from the last token truncated before the first `'['` or `';'` (the
`re.search` raising when neither occurs). -/
def processVariablesHLine (vars : List (Nat × PyStr)) (line : PyStr) : Option (List (Nat × PyStr)) :=
  if ("/* 0x".toList).isPrefixOf line then do
    let parts := splitOnChar ' ' (pyStrip line)
    let addrComment ← parts[1]?
    let addr ← pyInt0 addrComment
    let lastTok ← parts.getLast?
    if lastTok.any (fun c => c = '[' ∨ c = ';') then
      some (dictSet vars addr (lastTok.takeWhile (fun c => ¬ (c = '[' ∨ c = ';'))))
    else none
  else some vars

/-- The skip condition of the `undefined_syms.txt` loop (`split.py` line
129): after stripping, the line is empty or starts with `"//"`. -/
def skipUndefLine (line : PyStr) : Bool :=
  pyStrip line == [] || ("//".toList).isPrefixOf (pyStrip line)

/-- Parse of one non-skipped `undefined_syms.txt` line (`split.py` lines
130-132): split on `'='`; the name is the stripped left part; the address is
`int` of the stripped right part with its last character dropped. -/
def parseUndefinedSymLine (line : PyStr) : Option (Nat × PyStr) := do
  let l := pyStrip line
  let parts := splitOnChar '=' l
  let name0 ← parts[0]?
  let addrTok ← parts[1]?
  let addr ← pyInt0 (pyStrip addrTok).dropLast
  some (addr, pyStrip name0)

/-- One iteration of the `undefined_syms.txt` loop (`split.py` lines
127-133): blank and `"//"` lines are skipped, every other line is parsed as
a `name = address;` entry and stored as `vars[addr] = name`. -/
def processUndefinedSymsLine (vars : List (Nat × PyStr)) (line : PyStr) : Option (List (Nat × PyStr)) :=
  if ¬ pyStrip line = [] ∧ ¬ ("//".toList).isPrefixOf (pyStrip line) then
    (parseUndefinedSymLine line).map (fun r => dictSet vars r.1 r.2)
  else some vars

/-- `gather_c_variables` (`split.py` lines 104-135) over the two source
files' lines: `include/variables.h` first, then `undefined_syms.txt`. -/
def gather_c_variables (variablesHLines undefinedSymsLines : List PyStr) : Option (List (Nat × PyStr)) := do
  let vars ← variablesHLines.foldlM processVariablesHLine []
  undefinedSymsLines.foldlM processUndefinedSymsLine vars

/-- A Python value of the two runtime types that meet in the set expression
of `split.py` line 220: function names are `str`, the keys of the
auto-harvested function table are `int`.  Python equality between a `str`
and an `int` is always `False`, which constructor disjointness captures. -/
inductive PyVal where
  | str (s : PyStr)
  | int (n : Nat)
deriving DecidableEq

/-- Python set difference `a - b` on sets embedded as duplicate-free
lists. -/
def pySetDiff (a b : List PyVal) : List PyVal :=
  a.filter (fun x => !(b.contains x))

/-- The set `undefined_funcs - defined_funcs - c_predefined_funcs` of
`split.py` lines 219-220: the required names and the defined names enter as
`str` values, the keys of the auto-harvested function table as `int`
values. -/
def toWriteSet (undefinedFuncs definedFuncs : List PyStr) (cFuncs : List (Nat × PyStr)) : List PyVal :=
  pySetDiff (pySetDiff (undefinedFuncs.dedup.map PyVal.str) (definedFuncs.map PyVal.str))
    ((cFuncs.map Prod.fst).map PyVal.int)

/-- The string payload of a `PyVal`, if it is a `str`. -/
def asStr : PyVal → Option PyStr
  | PyVal.str s => some s
  | PyVal.int _ => none

/-- The `str` elements of a list of Python values. -/
def strsOf (l : List PyVal) : List PyStr := l.filterMap asStr

/-- Python `sorted(l)`: lexicographically sorts when every element is a
string, and raises `TypeError` (here `none`) on a `str`/`int` mix. -/
def pySorted (l : List PyVal) : Option (List PyStr) :=
  if (strsOf l).length = l.length then some ((strsOf l).insertionSort (· ≤ ·)) else none

/-- One line of `undefined_funcs.txt` (`split.py` line 224, without the
trailing newline): the name, `" = 0x"`, the name's characters at offsets 5
through 12 upper-cased, and `";"`. -/
def reportLine (name : PyStr) : PyStr :=
  name ++ " = 0x".toList ++ ((name.drop 5).take 8).map Char.toUpper ++ ";".toList

/-- The `undefined_funcs.txt` stage (`split.py` lines 219-224).
`Except.error` models the `TypeError` `sorted` raises on a `str`/`int` mix;
`Except.ok none` means no file is created (`len(to_write) == 0`);
`Except.ok (some lines)` is the created file's lines in order. -/
def undefinedFuncsTxt (undefinedFuncs definedFuncs : List PyStr) (cFuncs : List (Nat × PyStr)) :
    Except Unit (Option (List PyStr)) :=
  match pySorted (toWriteSet undefinedFuncs definedFuncs cFuncs) with
  | none => Except.error ()
  | some toWrite =>
    if toWrite.length > 0 then Except.ok (some (toWrite.map reportLine)) else Except.ok none

end Splat

deriving instance DecidableEq for Except

namespace Splat

/-- The segment-kind tag resolved from a descriptor (`parse_segment_type`
plus the `segtypes` module lookup).  `type(segment) == N64SegCode` holds
exactly for `SegKind.code`. -/
inductive SegKind where
  | code
  | other (tag : PyStr)
deriving DecidableEq

/-- A config segment descriptor together with the plugin-determined data the
engine reads for it.  `fieldsLen` is `len(segment)` of the raw YAML entry
(1 marks the sentinel).	 Modelled from the spec: `requireUniqueName` is the
segment class's `require_unique_name` attribute, and `glabelsAdded` /
`glabelsToAdd` are the `glabels_added` / `glabels_to_add` sets the plugin's
`split` reports for a code segment — the plugin code lives in the absent
`segtypes` package, so these enter as descriptor fields. -/
structure Descriptor where
  fieldsLen : Nat
  kind : SegKind
  name : PyStr
  start : Nat
  requireUniqueName : Bool
  glabelsAdded : List PyStr
  glabelsToAdd : List PyStr
deriving DecidableEq

/-- A constructed segment.  `injected` records whether the engine assigned
the shared symbol state (`split.py` lines 184-188) to this segment. -/
structure Segment where
  kind : SegKind
  name : PyStr
  romStart : Nat
  romEnd : Nat
  injected : Bool
  glabelsAdded : List PyStr
  glabelsToAdd : List PyStr
deriving DecidableEq

/-- Modelled from the spec: the segment constructor (in the absent
`segtypes` package) receives the descriptor and the next raw config entry
(`split.py` line 175) and takes its `rom_start` from its own descriptor's
start and its `rom_end` from the next entry's start. -/
def mkSegment (d nxt : Descriptor) : Segment :=
  { kind := d.kind, name := d.name, romStart := d.start, romEnd := nxt.start,
    injected := false, glabelsAdded := d.glabelsAdded, glabelsToAdd := d.glabelsToAdd }

/-- An observable plugin invocation of the engine's two passes. -/
inductive Action where
  | split (name : PyStr)
  | postsplit (name : PyStr) (allNames : List PyStr)
deriving DecidableEq

/-- The engine state threaded through the split pass: the constructed
segments, the seen unique names, the shared defined/required function-label
sets, and the trace of plugin invocations. -/
structure EngineState where
  segments : List Segment
  seenNames : List PyStr
  definedFuncs : List PyStr
  undefinedFuncs : List PyStr
  trace : List Action
deriving DecidableEq

/-- The empty engine state (`split.py` lines 156-162). -/
def initState : EngineState :=
  { segments := [], seenNames := [], definedFuncs := [], undefinedFuncs := [], trace := [] }

/-- Processing of one non-sentinel descriptor (`split.py` lines 170-206):
construct the segment and append it; exit with status 1 on a duplicate name
of a unique-name-requiring kind (`Except.error`, carrying the state at
exit); otherwise record the name, inject the shared symbol state exactly
for the code kind, run `split`, and fold the code segment's reported
glabels into the shared sets. -/
def processOne (st : EngineState) (d nxt : Descriptor) : Except EngineState EngineState :=
  let seg := mkSegment d nxt
  if d.requireUniqueName ∧ d.name ∈ st.seenNames then
    Except.error { st with segments := st.segments ++ [seg] }
  else
    let seen := if d.requireUniqueName then pyAdd st.seenNames d.name else st.seenNames
    let seg := if d.kind = SegKind.code then { seg with injected := true } else seg
    let defined :=
      if d.kind = SegKind.code then pyUnion st.definedFuncs d.glabelsAdded else st.definedFuncs
    let undef :=
      if d.kind = SegKind.code then pyUnion st.undefinedFuncs d.glabelsToAdd else st.undefinedFuncs
    Except.ok
      { segments := st.segments ++ [seg], seenNames := seen,
        definedFuncs := defined, undefinedFuncs := undef,
        trace := st.trace ++ [Action.split seg.name] }

/-- The split pass over the non-sentinel descriptors, each paired with the
raw config entry that follows it. -/
def splitPass (st : EngineState) : List (Descriptor × Descriptor) → Except EngineState EngineState
  | [] => Except.ok st
  | p :: rest =>
    match processOne st p.1 p.2 with
    | Except.error e => Except.error e
    | Except.ok st2 => splitPass st2 rest

/-- Pair each descriptor the loop of `split.py` line 165 processes with
`config['segments'][i + 1]`: entries of one field (the sentinel) are
skipped, and a final entry of more than one field makes the subscript raise
`IndexError` (`none`). -/
def pairNext : List Descriptor → Option (List (Descriptor × Descriptor))
  | [] => some []
  | [d] => if d.fieldsLen = 1 then some [] else none
  | d :: nxt :: rest => do
    let tl ← pairNext (nxt :: rest)
    if d.fieldsLen = 1 then some tl else some ((d, nxt) :: tl)

/-- The post-split pass (`split.py` lines 208-209): every constructed
segment's `postsplit(segments)` is invoked in order, with the complete
segment list. -/
def postPass (st : EngineState) : EngineState :=
  { st with
    trace := st.trace ++ st.segments.map (fun s => Action.postsplit s.name (st.segments.map Segment.name)) }

/-- Outcome of a run of `main`'s segment loop. -/
inductive RunResult where
  | indexError
  | exitOne (st : EngineState)
  | finished (st : EngineState)
deriving DecidableEq

/-- The segment-processing portion of `main` (`split.py` lines 164-209):
the split pass over all descriptors, then the post-split pass.  `exitOne`
is the non-zero process exit of line 181. -/
def run (ds : List Descriptor) : RunResult :=
  match pairNext ds with
  | none => RunResult.indexError
  | some pairs =>
    match splitPass initState pairs with
    | Except.error st => RunResult.exitOne st
    | Except.ok st => RunResult.finished (postPass st)

end Splat


namespace Splat

/-- The segment `processOne` appends on its success path: `mkSegment` with
the shared-state injection marker set exactly for the code kind. -/
def segOf (d nxt : Descriptor) : Segment :=
  if d.kind = SegKind.code then { mkSegment d nxt with injected := true } else mkSegment d nxt

theorem segOf_name (d nxt : Descriptor) : (segOf d nxt).name = d.name := by
  unfold segOf mkSegment; split <;> rfl

theorem segOf_romStart (d nxt : Descriptor) : (segOf d nxt).romStart = d.start := by
  unfold segOf mkSegment; split <;> rfl

theorem segOf_romEnd (d nxt : Descriptor) : (segOf d nxt).romEnd = nxt.start := by
  unfold segOf mkSegment; split <;> rfl

theorem mem_pyAdd (l : List PyStr) (x y : PyStr) : y ∈ pyAdd l x ↔ y ∈ l ∨ y = x := by
  unfold pyAdd
  split
  · rename_i hx
    constructor
    · exact Or.inl
    · rintro (h | rfl)
      · exact h
      · exact hx
  · simp [List.mem_append]

theorem processOne_ok (st : EngineState) (d nxt : Descriptor) (st2 : EngineState)
    (h : processOne st d nxt = Except.ok st2) :
    st2.segments = st.segments ++ [segOf d nxt] ∧
      st2.trace = st.trace ++ [Action.split d.name] := by
  unfold processOne at h
  split at h
  · cases h
  · cases h
    refine ⟨?_, ?_⟩
    · simp only [segOf]
    · simp only [segOf]
      split <;> simp [mkSegment]

theorem splitPass_append (ps qs : List (Descriptor × Descriptor)) (st : EngineState) :
    splitPass st (ps ++ qs) =
      match splitPass st ps with
      | Except.error e => Except.error e
      | Except.ok st2 => splitPass st2 qs := by
  induction ps generalizing st with
  | nil => simp [splitPass]
  | cons p ps ih =>
    simp only [List.cons_append, splitPass]
    cases processOne st p.1 p.2 with
    | error e => rfl
    | ok st2 => exact ih st2

theorem splitPass_ok (ps : List (Descriptor × Descriptor)) (st st2 : EngineState)
    (h : splitPass st ps = Except.ok st2) :
    st2.segments = st.segments ++ ps.map (fun p => segOf p.1 p.2) ∧
      st2.trace = st.trace ++ ps.map (fun p => Action.split p.1.name) := by
  induction ps generalizing st with
  | nil =>
    cases h
    simp
  | cons p ps ih =>
    unfold splitPass at h
    cases hp : processOne st p.1 p.2 with
    | error e => rw [hp] at h; cases h
    | ok stm =>
      rw [hp] at h
      obtain ⟨hseg, htr⟩ := ih stm h
      obtain ⟨hseg1, htr1⟩ := processOne_ok st p.1 p.2 stm hp
      rw [hseg, htr, hseg1, htr1]
      simp

theorem pairNext_eq : ∀ (ds : List Descriptor) (ps : List (Descriptor × Descriptor)),
    pairNext ds = some ps →
      ps = (ds.zip ds.tail).filterMap (fun p => if p.1.fieldsLen = 1 then none else some p)
  | [], ps, h => by
    simp [pairNext] at h
    subst h
    simp
  | [d], ps, h => by
    unfold pairNext at h
    split at h
    · cases h
      simp
    · cases h
  | d :: nxt :: rest, ps, h => by
    unfold pairNext at h
    cases hp : pairNext (nxt :: rest) with
    | none => rw [hp] at h; cases h
    | some tl =>
      rw [hp] at h
      have ih := pairNext_eq (nxt :: rest) tl hp
      simp only [Option.bind_eq_bind, Option.some_bind] at h
      split at h <;> cases h <;> rename_i hlen <;>
        simp [List.zip_cons_cons, List.filterMap_cons, hlen, ih]

end Splat

namespace Splat

/-- Claim C1: in a finished run, the constructed segments' ROM ranges are
exactly `[d.start, next.start)` for each non-sentinel descriptor `d` paired
with the raw config entry following it; a sentinel (single-field) entry
produces no segment. -/
theorem claim_C1_segment_ranges (ds : List Descriptor) (st : EngineState)
    (h : run ds = RunResult.finished st) :
    st.segments.map (fun s => (s.romStart, s.romEnd)) =
      (ds.zip ds.tail).filterMap
        (fun p => if p.1.fieldsLen = 1 then none else some (p.1.start, p.2.start)) := by
  unfold run at h
  split at h
  · cases h
  · rename_i ps hp
    split at h
    · cases h
    · rename_i stm hs
      cases h
      obtain ⟨hseg, -⟩ := splitPass_ok ps initState stm hs
      have hps := pairNext_eq ds ps hp
      show stm.segments.map _ = _
      rw [hseg]
      simp only [initState, List.nil_append, List.map_map]
      rw [hps, List.map_filterMap]
      apply List.filterMap_congr
      intro p _
      split <;> simp [segOf_romStart, segOf_romEnd]

def dsC1 : List Descriptor :=
  [⟨2, SegKind.other "bin".toList, "one".toList, 0x1000, false, [], []⟩,
   ⟨2, SegKind.other "bin".toList, "two".toList, 0x2000, false, [], []⟩,
   ⟨1, SegKind.other [], [], 0x3000, false, [], []⟩]

def stC1 : EngineState :=
  { segments := [⟨SegKind.other "bin".toList, "one".toList, 0x1000, 0x2000, false, [], []⟩,
                 ⟨SegKind.other "bin".toList, "two".toList, 0x2000, 0x3000, false, [], []⟩],
    seenNames := [], definedFuncs := [], undefinedFuncs := [],
    trace := [Action.split "one".toList, Action.split "two".toList,
              Action.postsplit "one".toList ["one".toList, "two".toList],
              Action.postsplit "two".toList ["one".toList, "two".toList]] }

/-- Witness for C1: descriptors with starts `0x1000`, `0x2000` and a
sentinel at `0x3000` yield exactly two segments with ROM ranges
`[0x1000, 0x2000)` and `[0x2000, 0x3000)`. -/
theorem claim_C1_segment_ranges_witness :
    run dsC1 = RunResult.finished stC1 ∧
    stC1.segments.map (fun s => (s.romStart, s.romEnd)) = [(0x1000, 0x2000), (0x2000, 0x3000)] ∧
    stC1.segments.length = 2 := by
  refine ⟨by decide, ?_, by decide⟩
  have h := claim_C1_segment_ranges dsC1 stC1 (by decide)
  rw [h]
  decide

end Splat

namespace Splat

/-- Claim C8: in a finished run the invocation trace is every constructed
segment's `split`, in config order, followed by every constructed segment's
`postsplit`, in the same order, each receiving the complete segment list —
so every split completes before any postsplit is invoked. -/
theorem claim_C8_split_then_postsplit (ds : List Descriptor) (st : EngineState)
    (h : run ds = RunResult.finished st) :
    st.trace =
      st.segments.map (fun s => Action.split s.name)
        ++ st.segments.map (fun s => Action.postsplit s.name (st.segments.map Segment.name)) := by
  unfold run at h
  split at h
  · cases h
  · rename_i ps hp
    split at h
    · cases h
    · rename_i stm hs
      cases h
      obtain ⟨hseg, htr⟩ := splitPass_ok ps initState stm hs
      simp only [postPass]
      rw [htr, hseg]
      simp [initState, List.map_map, Function.comp_def, segOf_name]

def dsC8 : List Descriptor :=
  [⟨3, SegKind.code, "main".toList, 0x0, true, ["f".toList], ["g".toList]⟩,
   ⟨2, SegKind.other "bin".toList, "data".toList, 0x100, false, [], []⟩,
   ⟨1, SegKind.other [], [], 0x200, false, [], []⟩]

def stC8 : EngineState :=
  { segments := [⟨SegKind.code, "main".toList, 0x0, 0x100, true, ["f".toList], ["g".toList]⟩,
                 ⟨SegKind.other "bin".toList, "data".toList, 0x100, 0x200, false, [], []⟩],
    seenNames := ["main".toList], definedFuncs := ["f".toList], undefinedFuncs := ["g".toList],
    trace := [Action.split "main".toList, Action.split "data".toList,
              Action.postsplit "main".toList ["main".toList, "data".toList],
              Action.postsplit "data".toList ["main".toList, "data".toList]] }

/-- Witness for C8: a run over a code segment and a bin segment invokes the
two splits first and then the two postsplits, each with the complete
two-segment list. -/
theorem claim_C8_split_then_postsplit_witness :
    run dsC8 = RunResult.finished stC8 ∧
    stC8.trace =
      stC8.segments.map (fun s => Action.split s.name)
        ++ stC8.segments.map (fun s => Action.postsplit s.name (stC8.segments.map Segment.name)) :=
  ⟨by decide, claim_C8_split_then_postsplit dsC8 stC8 (by decide)⟩

/-- Claim C5: if the split pass has processed a prefix successfully and the
next descriptor requires a unique name that was already seen, the run exits
with status 1 (`exitOne`) there: the offending segment is constructed and
appended, but its `split` is never invoked — the trace at exit is exactly
the splits of the prefix. -/
theorem claim_C5_unique_name_abort (ds : List Descriptor)
    (pre : List (Descriptor × Descriptor)) (d nxt : Descriptor)
    (rest : List (Descriptor × Descriptor)) (st : EngineState)
    (hpairs : pairNext ds = some (pre ++ (d, nxt) :: rest))
    (hok : splitPass initState pre = Except.ok st)
    (hruq : d.requireUniqueName = true)
    (hseen : d.name ∈ st.seenNames) :
    run ds = RunResult.exitOne { st with segments := st.segments ++ [mkSegment d nxt] } ∧
      st.trace = pre.map (fun p => Action.split p.1.name) := by
  have herr : processOne st d nxt =
      Except.error { st with segments := st.segments ++ [mkSegment d nxt] } := by
    unfold processOne
    rw [if_pos ⟨hruq, hseen⟩]
  constructor
  · unfold run
    rw [hpairs]
    have h2 : splitPass initState (pre ++ (d, nxt) :: rest) =
        Except.error { st with segments := st.segments ++ [mkSegment d nxt] } := by
      rw [splitPass_append pre ((d, nxt) :: rest) initState, hok]
      show splitPass st ((d, nxt) :: rest) = _
      simp only [splitPass]
      rw [herr]
    simp only [h2]
  · have := (splitPass_ok pre initState st hok).2
    simpa [initState] using this

def dM1 : Descriptor := ⟨2, SegKind.other "bin".toList, "main".toList, 0x1000, true, [], []⟩

def dM2 : Descriptor := ⟨2, SegKind.other "bin".toList, "main".toList, 0x2000, true, [], []⟩

def dM3 : Descriptor := ⟨1, SegKind.other [], [], 0x3000, false, [], []⟩

def dsC5 : List Descriptor := [dM1, dM2, dM3]

def stC5 : EngineState :=
  { segments := [⟨SegKind.other "bin".toList, "main".toList, 0x1000, 0x2000, false, [], []⟩],
    seenNames := ["main".toList], definedFuncs := [], undefinedFuncs := [],
    trace := [Action.split "main".toList] }

/-- Witness for C5: two unique-name-requiring descriptors both named
`"main"` make the run exit non-zero when the second is reached, with only
the first segment's split in the trace. -/
theorem claim_C5_unique_name_abort_witness :
    run dsC5 = RunResult.exitOne { stC5 with segments := stC5.segments ++ [mkSegment dM2 dM3] } ∧
      stC5.trace = [(dM1, dM2)].map (fun p => Action.split p.1.name) :=
  claim_C5_unique_name_abort dsC5 [(dM1, dM2)] dM2 dM3 [] stC5 (by decide) (by decide)
    (by decide) (by decide)

/-- Claim C10: the segment loop injects the shared symbol state and folds
the reported glabel sets exactly for a segment whose type is the code kind;
a successful step on any other kind leaves the defined-function and
required-function sets unchanged and its segment uninjected. -/
theorem claim_C10_code_only_state (st : EngineState) (d nxt : Descriptor) (st2 : EngineState)
    (h : processOne st d nxt = Except.ok st2) :
    (d.kind ≠ SegKind.code →
      st2.definedFuncs = st.definedFuncs ∧ st2.undefinedFuncs = st.undefinedFuncs ∧
      st2.segments = st.segments ++ [mkSegment d nxt] ∧ (mkSegment d nxt).injected = false) ∧
    (d.kind = SegKind.code →
      st2.segments = st.segments ++ [{ mkSegment d nxt with injected := true }] ∧
      st2.definedFuncs = pyUnion st.definedFuncs d.glabelsAdded ∧
      st2.undefinedFuncs = pyUnion st.undefinedFuncs d.glabelsToAdd) := by
  unfold processOne at h
  split at h
  · cases h
  · cases h
    constructor
    · intro hnc
      refine ⟨by simp [if_neg hnc], by simp [if_neg hnc], by simp [if_neg hnc], by simp [mkSegment]⟩
    · intro hc
      refine ⟨by simp [if_pos hc], by simp [if_pos hc], by simp [if_pos hc]⟩

def dC10 : Descriptor :=
  ⟨2, SegKind.other "bin".toList, "seg".toList, 0x0, false, ["g".toList], ["h".toList]⟩

def dC10n : Descriptor := ⟨1, SegKind.other [], [], 0x10, false, [], []⟩

def stC10 : EngineState :=
  { segments := [⟨SegKind.other "bin".toList, "seg".toList, 0x0, 0x10, false, ["g".toList], ["h".toList]⟩],
    seenNames := [], definedFuncs := [], undefinedFuncs := [],
    trace := [Action.split "seg".toList] }

/-- Witness for C10: processing a non-code segment (even one whose plugin
reports glabels) leaves the shared defined/required sets unchanged. -/
theorem claim_C10_code_only_state_witness :
    processOne initState dC10 dC10n = Except.ok stC10 ∧
      stC10.definedFuncs = initState.definedFuncs ∧
      stC10.undefinedFuncs = initState.undefinedFuncs := by
  have h := (claim_C10_code_only_state initState dC10 dC10n stC10 (by decide)).1 (by decide)
  exact ⟨by decide, h.1, h.2.1⟩

end Splat

namespace Splat

/-- Claim C2 (counterexample): the linker script content for the fragment
list `["A", "B"]` is not the claimed string in which the first fragment is
indented by four spaces — the four-space indentation is only inserted
between fragments, so the first fragment follows the opening brace's
newline unindented. -/
theorem claim_C2_counterexample :
    ldscriptContent ["A".toList, "B".toList] ≠ "SECTIONS\n\x7b\n    A\n    B\n\x7d\n".toList := by
  decide

/-- Claim C2 (amended): for fragments `["A", "B"]` the content is exactly
`"SECTIONS\n\x7b\nA\n    B\n\x7d\n"`: fragments after the first are
preceded by a newline and four spaces, a fragment's own embedded newlines
are continued with four-space indentation (so the single fragment
`"A\nB"` produces the same content), and the file ends with a newline. -/
theorem claim_C2_ldscript_content :
    ldscriptContent ["A".toList, "B".toList] = "SECTIONS\n\x7b\nA\n    B\n\x7d\n".toList ∧
    ldscriptContent ["A\nB".toList] = "SECTIONS\n\x7b\nA\n    B\n\x7d\n".toList ∧
    ∀ sections : List PyStr, (ldscriptContent sections).getLast? = some '\n' := by
  refine ⟨by decide, by decide, ?_⟩
  intro sections
  have h3 : ("\n\x7d\n".toList : PyStr) ≠ [] := by decide
  unfold ldscriptContent
  rw [List.getLast?_append_of_ne_nil _ h3]
  rfl

theorem find?_dictSet_map (t : List (Nat × PyStr)) (a : Nat) (n : PyStr)
    (h : t.any (fun p => p.1 == a) = true) :
    (t.map (fun p => if p.1 == a then (a, n) else p)).find? (fun p => p.1 == a) = some (a, n) := by
  induction t with
  | nil => cases h
  | cons q t ih =>
    simp only [List.map_cons]
    by_cases hq : (q.1 == a) = true
    · rw [if_pos hq]
      exact List.find?_cons_of_pos _ (by simp)
    · rw [if_neg hq]
      rw [List.find?_cons_of_neg _ (by simpa using hq)]
      apply ih
      simp only [List.any_cons, Bool.or_eq_true] at h
      rcases h with h | h
      · exact absurd h hq
      · exact h

theorem dictGet_dictSet (t : List (Nat × PyStr)) (a : Nat) (n : PyStr) :
    dictGet (dictSet t a n) a = some n := by
  unfold dictGet dictSet
  by_cases hany : t.any (fun p => p.1 == a) = true
  · rw [if_pos hany, find?_dictSet_map t a n hany]
    rfl
  · rw [if_neg hany]
    have hnone : t.find? (fun p => p.1 == a) = none := by
      apply List.find?_eq_none.mpr
      intro p hp hcontra
      exact hany (List.any_eq_true.mpr ⟨p, hp, hcontra⟩)
    rw [List.find?_append, hnone]
    simp [List.find?]

/-- Claim C4: Python dict assignment is last-write-wins by key, the manual
symbol source is folded after the auto-harvested one, and concretely the
auto entry `0x1000 ↦ "a"` overwritten by the manual entry `0x1000 ↦ "b"`
leaves the merged table mapping `0x1000` to `"b"`. -/
theorem claim_C4_manual_wins :
    (∀ (t : List (Nat × PyStr)) (a : Nat) (n : PyStr), dictGet (dictSet t a n) a = some n) ∧
    gather_c_funcs ["/* 0x00001000 */ void a(void);".toList] ["b;0x1000;".toList]
      = some ⟨[(0x1000, "b".toList)], []⟩ ∧
    dictGet [(0x1000, "b".toList)] 0x1000 = some "b".toList :=
  ⟨dictGet_dictSet, by decide, by decide⟩

theorem not_contains_str (l : List Nat) (n : PyStr) :
    ((l.map PyVal.int).contains (PyVal.str n)) = false := by
  induction l with
  | nil => rfl
  | cons a l ih =>
    simp only [List.map_cons, List.contains_cons, ih, Bool.or_false]
    simp

/-- Claim C3 (code bug): `c_predefined_funcs = set(c_funcs.keys())` is a set
of integer addresses, while `undefined_funcs` and `defined_funcs` hold
string names; Python never equates a `str` with an `int`, so the
subtraction of the known-address set removes nothing.  A required name
whose address is in the auto-harvested table is still reported, contrary to
the claim. -/
theorem claim_C3_dead_subtraction :
    toWriteSet ["func_80001000".toList] [] [(0x80001000, "func_80001000".toList)]
      = [PyVal.str "func_80001000".toList] ∧
    undefinedFuncsTxt ["func_80001000".toList] [] [(0x80001000, "func_80001000".toList)]
      = Except.ok (some ["func_80001000 = 0x80001000;".toList]) ∧
    ∀ (n : PyStr) (cFuncs : List (Nat × PyStr)), PyVal.str n ∈ toWriteSet [n] [] cFuncs := by
  refine ⟨by decide, by decide, ?_⟩
  intro n c
  simp only [toWriteSet, pySetDiff, List.map_nil]
  rw [List.mem_filter]
  constructor
  · rw [List.mem_filter]
    refine ⟨?_, rfl⟩
    rw [List.dedup_cons_of_not_mem (List.not_mem_nil n), List.dedup_nil]
    simp
  · rw [not_contains_str]
    rfl

end Splat

namespace Splat

/-- Claim C6: a name parsed from an auto-harvested `functions.h` line lands
in the explicit-label set exactly when that line's address-comment token is
flagged (11th character `'!'`); a manual `symbol_addrs.txt` name lands
there exactly when it carried the `'!'` prefix, stored stripped; and for
the concrete flagged auto line and flagged manual entry, both names are in
the set. -/
theorem claim_C6_explicit_labels :
    ((gather_c_funcs ["/* 0x80001000! */ void bar(void);".toList] ["!foo;0x80002000;".toList]).map
        FuncGatherState.labelsToAdd = some ["bar".toList, "foo".toList]) ∧
    (∀ (st st2 : FuncGatherState) (line : PyStr) (a : Nat) (nm ac x : PyStr),
        processFunctionsHLine st line = some st2 →
        parseFuncLine line = some (a, nm, ac) →
        (x ∈ st2.labelsToAdd ↔ x ∈ st.labelsToAdd ∨ (explicitFlag ac = true ∧ x = nm))) ∧
    (∀ (st st2 : FuncGatherState) (line : PyStr) (a : Nat) (nm : PyStr) (fl : Bool) (x : PyStr),
        processSymbolAddrsLine st line = some st2 →
        parseSymbolAddrsLine line = some (a, nm, fl) →
        (x ∈ st2.labelsToAdd ↔ x ∈ st.labelsToAdd ∨ (fl = true ∧ x = nm))) := by
  refine ⟨by decide, ?_, ?_⟩
  · intro st st2 line a nm ac x hproc hparse
    unfold processFunctionsHLine at hproc
    split at hproc
    · rw [hparse] at hproc
      simp only [Option.map_some'] at hproc
      cases hproc
      by_cases hf : explicitFlag ac = true
      · simp [hf, mem_pyAdd]
      · simp [hf]
    · rename_i hpre
      unfold parseFuncLine at hparse
      rw [if_neg hpre] at hparse
      cases hparse
  · intro st st2 line a nm fl x hproc hparse
    unfold processSymbolAddrsLine at hproc
    rw [hparse] at hproc
    simp only [Option.map_some'] at hproc
    cases hproc
    by_cases hf : fl = true
    · simp [hf, mem_pyAdd]
    · simp [hf]

def lineC6 : PyStr := "/* 0x80001000! */ void bar(void);".toList

def stC6 : FuncGatherState := ⟨[(0x80001000, "bar".toList)], ["bar".toList]⟩

/-- Witness for C6: applying the auto-source characterization to the
flagged line `"/* 0x80001000! */ void bar(void);"` starting from the empty
state shows `"bar"` is in the explicit-label set because the token's 11th
character is `'!'`. -/
theorem claim_C6_explicit_labels_witness :
    "bar".toList ∈ stC6.labelsToAdd ↔
      "bar".toList ∈ (FuncGatherState.mk [] []).labelsToAdd ∨
        (explicitFlag "0x80001000!".toList = true ∧ ("bar".toList : PyStr) = "bar".toList) :=
  claim_C6_explicit_labels.2.1 ⟨[], []⟩ stC6 lineC6 0x80001000 "bar".toList
    "0x80001000!".toList "bar".toList (by decide) (by decide)

/-- Claim C7: the undefined-function report lines are the residual set
sorted lexicographically, one line `name = 0xADDRESS;` per name with the
address recovered from the name's characters at offsets 5-12 upper-cased;
the concrete residual `{"func_80001000"}` yields exactly
`func_80001000 = 0x80001000;`, and an empty residual creates no file. -/
theorem claim_C7_report_format :
    (undefinedFuncsTxt ["func_80001000".toList] [] []
      = Except.ok (some ["func_80001000 = 0x80001000;".toList])) ∧
    (∀ (undef defined : List PyStr) (cFuncs : List (Nat × PyStr)),
        toWriteSet undef defined cFuncs = [] →
        undefinedFuncsTxt undef defined cFuncs = Except.ok none) ∧
    (∀ (undef defined : List PyStr) (cFuncs : List (Nat × PyStr)) (lines : List PyStr),
        undefinedFuncsTxt undef defined cFuncs = Except.ok (some lines) →
        ∃ names : List PyStr,
          names.Perm (strsOf (toWriteSet undef defined cFuncs)) ∧
          List.Sorted (fun x y : PyStr => x ≤ y) names ∧
          lines = names.map reportLine ∧ names ≠ []) := by
  refine ⟨by decide, ?_, ?_⟩
  · intro u d c h
    unfold undefinedFuncsTxt
    rw [h]
    decide
  · intro u d c lines h
    cases hs : pySorted (toWriteSet u d c) with
    | none =>
      have hrw : undefinedFuncsTxt u d c = Except.error () := by
        unfold undefinedFuncsTxt
        rw [hs]
      rw [hrw] at h
      cases h
    | some tw =>
      have hrw : undefinedFuncsTxt u d c
          = if tw.length > 0 then Except.ok (some (tw.map reportLine)) else Except.ok none := by
        unfold undefinedFuncsTxt
        rw [hs]
      rw [hrw] at h
      by_cases hlen : tw.length > 0
      · rw [if_pos hlen] at h
        cases h
        unfold pySorted at hs
        split at hs
        · cases hs
          refine ⟨_, List.perm_insertionSort _ _, List.sorted_insertionSort _ _, rfl, ?_⟩
          intro hnil
          rw [hnil] at hlen
          exact absurd hlen (by simp)
        · cases hs
      · rw [if_neg hlen] at h
        simp at h

/-- Witness for C7: an empty residual set produces no report file. -/
theorem claim_C7_report_format_witness :
    undefinedFuncsTxt [] [] [] = Except.ok none :=
  claim_C7_report_format.2.1 [] [] [] (by decide)

theorem processUndefinedSymsLine_of_skip (vars : List (Nat × PyStr)) (line : PyStr)
    (h : skipUndefLine line = true) : processUndefinedSymsLine vars line = some vars := by
  unfold skipUndefLine at h
  unfold processUndefinedSymsLine
  rw [if_neg]
  rintro ⟨h1, h2⟩
  simp only [Bool.or_eq_true, beq_iff_eq] at h
  rcases h with h | h
  · exact h1 h
  · exact h2 h

/-- Claim C9: folding the manual variable-address source over any state
gives the same result when the blank and `"//"` lines are first filtered
out (they are silently skipped and contribute nothing); every non-skipped
line is processed as a `name = address;` entry; concretely, blank,
whitespace-only and comment lines around `"foo = 0x10;"` produce exactly
the entry `0x10 ↦ "foo"`. -/
theorem claim_C9_skip_blank_and_comment :
    (∀ (lines : List PyStr) (vars : List (Nat × PyStr)),
        lines.foldlM processUndefinedSymsLine vars
          = (lines.filter (fun l => !skipUndefLine l)).foldlM processUndefinedSymsLine vars) ∧
    (∀ (vars : List (Nat × PyStr)) (line : PyStr), skipUndefLine line = false →
        processUndefinedSymsLine vars line
          = (parseUndefinedSymLine line).map (fun r => dictSet vars r.1 r.2)) ∧
    gather_c_variables [] ["".toList, "   ".toList, "// note".toList, "foo = 0x10;".toList]
      = some [(0x10, "foo".toList)] := by
  refine ⟨?_, ?_, by decide⟩
  · intro lines
    induction lines with
    | nil => intro vars; rfl
    | cons l ls ih =>
      intro vars
      by_cases hskip : skipUndefLine l = true
      · rw [List.filter_cons_of_neg (by simp [hskip])]
        rw [List.foldlM_cons, processUndefinedSymsLine_of_skip vars l hskip]
        simpa using ih vars
      · rw [List.filter_cons_of_pos (by simp at hskip ⊢; exact hskip)]
        rw [List.foldlM_cons, List.foldlM_cons]
        cases hp : processUndefinedSymsLine vars l with
        | none => rfl
        | some v2 => simpa using ih v2
  · intro vars line h
    have hcond : ¬ pyStrip line = [] ∧ ¬ ("//".toList).isPrefixOf (pyStrip line) := by
      constructor
      · intro he
        apply absurd h
        simp [skipUndefLine, he]
      · intro hp
        apply absurd h
        simp only [skipUndefLine, hp, Bool.or_true]
        decide
    unfold processUndefinedSymsLine
    rw [if_pos hcond]

/-- Witness for C9: the non-skipped line `"foo = 0x10;"` is processed as a
parsed `name = address;` entry. -/
theorem claim_C9_skip_blank_and_comment_witness :
    processUndefinedSymsLine [] "foo = 0x10;".toList
      = (parseUndefinedSymLine "foo = 0x10;".toList).map (fun r => dictSet [] r.1 r.2) :=
  claim_C9_skip_blank_and_comment.2.1 [] "foo = 0x10;".toList (by decide)

end Splat
